import Mathlib

/-!
Shallow embedding of the order-intent and cart-state engine of
`src/app.py` (a voice food-ordering Flask service).  Pure string and list
processing is translated function by function: the intent predicates
(`is_greeting_or_casual`, `is_checkout_command`, the clear-cart test), the
rule-based fallback extractor `fallback_extract_order`, the primary
extractor `extract_order_with_gemini` (with the completion collaborator's
answer passed in as an explicit parameter), and the `process_order`
request handler acting on a per-session state of cart plus completed
flag.  Prices are rationals; quantities are integers, as Python ints.
-/

/-! ### String helpers mirroring Python primitives -/

/-- Python list/str prefix test on character lists: `seqStarts n h` is true
when `h` starts with `n`. -/
def seqStarts : List Char → List Char → Bool
  | [], _ => true
  | _ :: _, [] => false
  | a :: as, b :: bs => a == b && seqStarts as bs

/-- Python substring test `n in h` on character lists: contiguous
subsequence. -/
def containsSeq (n : List Char) (h : List Char) : Bool :=
  match h with
  | [] => n.isEmpty
  | _ :: t => seqStarts n h || containsSeq n t

/-- Python `needle in hay` for strings. -/
def strContains (hay needle : String) : Bool :=
  containsSeq needle.toList hay.toList

/-- Python `str.lower()` (ASCII). -/
def pyLower (s : String) : String :=
  ⟨s.data.map Char.toLower⟩

/-- Drop leading and trailing whitespace from a character list. -/
def stripChars (l : List Char) : List Char :=
  ((l.dropWhile Char.isWhitespace).reverse.dropWhile Char.isWhitespace).reverse

/-- Python `str.strip()`: remove surrounding whitespace only. -/
def pyStrip (s : String) : String :=
  ⟨stripChars s.data⟩

/-- Accumulating word splitter: `acc` holds the reversed current word. -/
def splitWsAux (acc : List Char) (l : List Char) : List String :=
  match l with
  | [] => if acc.isEmpty then [] else [⟨acc.reverse⟩]
  | c :: rest =>
    if c.isWhitespace then
      if acc.isEmpty then splitWsAux [] rest
      else ⟨acc.reverse⟩ :: splitWsAux [] rest
    else splitWsAux (c :: acc) rest

/-- Python `str.split()` with no argument: split on whitespace runs,
dropping empty pieces. -/
def pyWords (s : String) : List String :=
  splitWsAux [] s.data

/-- Python `str.isdigit()` for ASCII digits: nonempty and all digits. -/
def isDigits (s : String) : Bool :=
  !s.data.isEmpty && s.data.all (·.isDigit)

/-- Python `int(s)` on a digit string. -/
def digitsVal (s : String) : Int :=
  ((s.toList.foldl (fun a c => a * 10 + (c.toNat - 48)) 0 : Nat) : Int)

/-! ### Menu catalog (`MENU`, app.py lines 57-70) -/

/-- A cart line / extracted item: `{key, name, price, quantity}` dict as
built by both extractors and stored in `carts[session_id]`. -/
structure CartItem where
  key : String
  name : String
  price : ℚ
  quantity : Int
deriving DecidableEq, Repr

/-- The static menu, in Python dict declaration order:
key ↦ (display name, unit price). -/
def MENU : List (String × String × ℚ) :=
  [("burger", "Burger", 899/100),
   ("cheeseburger", "Cheeseburger", 999/100),
   ("pizza", "Pizza", 1299/100),
   ("pasta", "Pasta", 1099/100),
   ("salad", "Salad", 799/100),
   ("fries", "Fries", 399/100),
   ("chicken wings", "Chicken Wings", 1199/100),
   ("sandwich", "Sandwich", 699/100),
   ("soda", "Soda", 299/100),
   ("water", "Water", 199/100),
   ("coffee", "Coffee", 349/100),
   ("milkshake", "Milkshake", 599/100)]

/-- Python `MENU[k]` dict lookup (keys are unique). -/
def menuLookup (k : String) : Option (String × ℚ) :=
  MENU.lookup k

/-! ### Intent predicates (app.py lines 242-263 and 586) -/

/-- Matches the regex `^stem c+$`: the string is `stem` followed by one or
more copies of `c`. -/
def matchPlus (stem : List Char) (c : Char) (s : List Char) : Bool :=
  seqStarts stem s && (let r := s.drop stem.length; !r.isEmpty && r.all (· == c))

/-- The exact-match casual patterns of `is_greeting_or_casual` (those with
no `+`). -/
def casualExact : List String :=
  ["good morning", "good afternoon", "good evening", "how are you",
   "thanks", "thank you", "okay", "ok", "yes", "no", "sure", "alright",
   "please"]

/-- `is_greeting_or_casual` (app.py 242-252): lowercase, strip, then match
one of the anchored patterns `^hi+$`, `^hello+$`, `^hey+$`, or an exact
phrase. -/
def is_greeting_or_casual (text : String) : Bool :=
  let tl := pyStrip (pyLower text)
  matchPlus ['h'] 'i' tl.toList ||
  matchPlus ['h', 'e', 'l', 'l'] 'o' tl.toList ||
  matchPlus ['h', 'e'] 'y' tl.toList ||
  casualExact.contains tl

/-- The checkout trigger phrases of `is_checkout_command` (app.py
257-262). -/
def checkout_phrases : List String :=
  ["checkout", "check out", "complete order", "complete my order",
   "finish order", "finish my order", "place order", "place my order",
   "that\x27s all", "that is all", "i\x27m done", "im done",
   "done ordering", "finish", "complete", "thats it", "that\x27s it"]

/-- `is_checkout_command` (app.py 254-263): lowercase, strip, any trigger
phrase as a substring. -/
def is_checkout_command (text : String) : Bool :=
  let tl := pyStrip (pyLower text)
  checkout_phrases.any (fun p => strContains tl p)

/-- The cart-clear test inlined in `process_order` (app.py 586):
`'clear' in text.lower() and 'cart' in text.lower()`. -/
def is_cart_clear (text : String) : Bool :=
  strContains (pyLower text) "clear" && strContains (pyLower text) "cart"

/-- The four intents of the specification's classifier. -/
inductive Intent where
  | Casual
  | CartClear
  | Checkout
  | OrderExtraction
deriving DecidableEq, Repr

/-- The intent classifier, in the branch order of `process_order`
(app.py 576-623): Casual, then CartClear, then Checkout, else
extraction. -/
def classify (u : String) : Intent :=
  if is_greeting_or_casual u then .Casual
  else if is_cart_clear u then .CartClear
  else if is_checkout_command u then .Checkout
  else .OrderExtraction

/-! ### Fallback extractor (app.py 328-366) -/

/-- The `quantity_map` dict of `fallback_extract_order`. -/
def quantity_map : List (String × Int) :=
  [("a", 1), ("an", 1), ("one", 1), ("two", 2), ("three", 3), ("four", 4),
   ("five", 5), ("six", 6), ("seven", 7), ("eight", 8), ("nine", 9),
   ("ten", 10)]

/-- Quantity inferred from the word before the matched token (`prev1`),
with the word before that (`prev2`) consulted when `prev1` is "more"
(app.py 347-356). -/
def qtyFromPrev (prev2 : Option String) (prev1 : String) : Int :=
  match quantity_map.lookup prev1 with
  | some n => n
  | none =>
    if isDigits prev1 then digitsVal prev1
    else if prev1 == "more" then
      match prev2 with
      | some w2 =>
        match quantity_map.lookup w2 with
        | some n => n
        | none => if isDigits w2 then digitsVal w2 else 1
      | none => 1
    else 1

/-- The word scan of `fallback_extract_order` (app.py 343-357): find the
first token containing the key's first word and read the quantity off the
preceding token(s); default 1. -/
def scanQty (kw : String) (p2 p1 : Option String) (ws : List String) : Int :=
  match ws with
  | [] => 1
  | w :: rest =>
    if strContains w kw then
      match p1 with
      | none => 1
      | some pw => qtyFromPrev p2 pw
    else scanQty kw p1 (some w) rest

/-- Quantity for a present menu key in the lowered utterance. -/
def findQuantity (tl : String) (key : String) : Int :=
  scanQty ((pyWords key).headD "") none none (pyWords tl)

/-- `fallback_extract_order` (app.py 328-366): every menu key that is a
substring of the lowered utterance contributes one item, in menu
declaration order, with the scanned quantity. -/
def fallback_extract_order (u : String) : List CartItem :=
  let tl := pyLower u
  MENU.filterMap fun kv =>
    if strContains tl kv.1 then
      some ⟨kv.1, kv.2.1, kv.2.2, findQuantity tl kv.1⟩
    else none

/-! ### Primary (generative) extractor (app.py 265-326)

The completion collaborator is external; its outcome is an explicit
parameter.  `Except.error ()` stands for every failure of the primary
path up to and including JSON parsing: network error, empty response,
no JSON array found, malformed JSON — all of which raise inside the
`try` block and fall through to the fallback.  A successfully parsed
array is a list of raw entries; a missing `item` field is the empty
string (`item.get('item', '')`), a missing `quantity` is `none`
(`item.get('quantity', 1)`), and a present quantity on which Python's
`int()` raises is `some (.error ())`. -/

/-- One parsed entry of the collaborator's JSON array. -/
structure RawEntry where
  item : String
  quantity : Option (Except Unit Int)

/-- True when `int(quantity)` would raise for this entry, aborting the
whole validation loop. -/
def entryBadQty (e : RawEntry) : Bool :=
  match e.quantity with
  | some (.error _) => true
  | _ => false

/-- `int(item.get('quantity', 1))` when it does not raise: the given
integer, defaulting to 1 when the field is omitted. -/
def entryQty (e : RawEntry) : Int :=
  match e.quantity with
  | some (.ok n) => n
  | _ => 1

/-- The per-entry validation of app.py 312-323: normalize the item name,
keep it only when it is an exact menu key, copying the menu's display
name and price and the entry's (defaulted) quantity. -/
def validEntry (e : RawEntry) : Option CartItem :=
  let nm := pyStrip (pyLower e.item)
  match menuLookup nm with
  | some (dn, pr) => some ⟨nm, dn, pr, entryQty e⟩
  | none => none

/-- `extract_order_with_gemini` (app.py 265-326).  `mc` is whether the
completion collaborator is configured (`model` is not `None`); `resp` is
the outcome of the primary path.  Casual and checkout utterances
short-circuit to `[]`; an unconfigured or failing collaborator and any
`int()` failure inside the validation loop all degrade to the
fallback extractor. -/
def extract_order_with_gemini (mc : Bool) (resp : Except Unit (List RawEntry))
    (u : String) : List CartItem :=
  if is_greeting_or_casual u then []
  else if is_checkout_command u then []
  else if !mc then fallback_extract_order u
  else
    match resp with
    | .error _ => fallback_extract_order u
    | .ok entries =>
      if entries.any entryBadQty then fallback_extract_order u
      else entries.filterMap validEntry

/-! ### Cart aggregation and the request handler (app.py 555-656) -/

/-- The merge of one extracted item into the cart (app.py 638-643): the
first line with the same key has its quantity incremented in place;
otherwise the item is appended. -/
def mergeItem : List CartItem → CartItem → List CartItem
  | [], it => [it]
  | c :: rest, it =>
    if c.key = it.key then { c with quantity := c.quantity + it.quantity } :: rest
    else c :: mergeItem rest it

/-- The merge loop over all extracted items, in extraction order. -/
def mergeItems (cart : List CartItem) (items : List CartItem) : List CartItem :=
  items.foldl mergeItem cart

/-- `sum(item['price'] * item['quantity'] for item in cart)`: the total,
recomputed from the lines on demand. -/
def cartTotal (cart : List CartItem) : ℚ :=
  (cart.map fun c => c.price * (c.quantity : ℚ)).sum

/-- Per-session state touched by `process_order`: the working cart
(`carts[session_id]`) and the completed-order flag
(`completed_orders.get(session_id, False)`). -/
structure SessionState where
  cart : List CartItem
  completed : Bool
deriving DecidableEq

/-- The response fields of `process_order` relevant to the engine:
`success`, `cart`, `total`, and whether a persistence write was attempted
(`save_order_to_salesforce` reached). -/
structure ProcessResult where
  success : Bool
  cart : List CartItem
  total : ℚ
  persisted : Bool
deriving DecidableEq

/-- `process_order` (app.py 555-656) for one utterance: branch on casual,
cart-clear, checkout (empty versus non-empty cart), else extraction with
the lazy completed-flag cart reset and the merge loop.  `sfc` is whether
both the record store and an authenticated customer are present (the
`if sf and customer_id` guard). -/
def process_order (mc : Bool) (resp : Except Unit (List RawEntry)) (sfc : Bool)
    (u : String) (st : SessionState) : ProcessResult × SessionState :=
  if is_greeting_or_casual u then
    (⟨true, st.cart, cartTotal st.cart, false⟩, st)
  else if is_cart_clear u then
    (⟨true, [], 0, false⟩, { st with cart := [] })
  else if is_checkout_command u then
    if st.cart.isEmpty then
      (⟨false, [], 0, false⟩, st)
    else
      (⟨true, st.cart, cartTotal st.cart, sfc⟩, { st with completed := true })
  else
    let extracted := extract_order_with_gemini mc resp u
    if extracted.isEmpty then
      (⟨false, st.cart, cartTotal st.cart, false⟩, st)
    else
      let st1 : SessionState := if st.completed then ⟨[], false⟩ else st
      let newCart := mergeItems st1.cart extracted
      (⟨true, newCart, cartTotal newCart, false⟩, { st1 with cart := newCart })

/-! ### Helper lemmas -/

theorem seqStarts_iff (n : List Char) : ∀ h : List Char,
    seqStarts n h = true ↔ ∃ t, h = n ++ t := by
  induction n with
  | nil => intro h; simp [seqStarts]
  | cons a as ih =>
    intro h
    cases h with
    | nil => simp [seqStarts]
    | cons b bs =>
      simp only [seqStarts, Bool.and_eq_true, beq_iff_eq, ih]
      constructor
      · rintro ⟨rfl, t, rfl⟩; exact ⟨t, rfl⟩
      · rintro ⟨t, heq⟩
        cases heq
        exact ⟨rfl, t, rfl⟩

theorem containsSeq_iff (n : List Char) : ∀ h : List Char,
    containsSeq n h = true ↔ ∃ s t, h = s ++ n ++ t := by
  intro h
  induction h with
  | nil =>
    simp only [containsSeq, List.isEmpty_iff]
    constructor
    · rintro rfl; exact ⟨[], [], rfl⟩
    · rintro ⟨s, t, heq⟩
      rcases List.append_eq_nil.mp heq.symm with ⟨h1, h2⟩
      exact (List.append_eq_nil.mp h1).2
  | cons c t ih =>
    simp only [containsSeq, Bool.or_eq_true, seqStarts_iff, ih]
    constructor
    · rintro (⟨t2, heq⟩ | ⟨s, t2, rfl⟩)
      · exact ⟨[], t2, by simpa using heq⟩
      · exact ⟨c :: s, t2, rfl⟩
    · rintro ⟨s, t2, heq⟩
      cases s with
      | nil => exact Or.inl ⟨t2, by simpa using heq⟩
      | cons x xs =>
        cases heq
        exact Or.inr ⟨xs, t2, rfl⟩

/-- Substring containment is transitive: anything containing `mid`
contains every substring of `mid`. -/
theorem strContains_of_sub (hay mid needle : String)
    (h1 : strContains hay mid = true)
    (h2 : containsSeq needle.toList mid.toList = true) :
    strContains hay needle = true := by
  rw [strContains, containsSeq_iff] at h1 ⊢
  rw [containsSeq_iff] at h2
  obtain ⟨s, t, hst⟩ := h1
  obtain ⟨s2, t2, hst2⟩ := h2
  exact ⟨s ++ s2, t2 ++ t, by rw [hst, hst2]; simp⟩

/-- Merging an item whose key is absent appends it. -/
theorem mergeItem_of_not_found (cart : List CartItem) (it : CartItem)
    (h : ∀ x ∈ cart, x.key ≠ it.key) : mergeItem cart it = cart ++ [it] := by
  induction cart with
  | nil => rfl
  | cons c rest ih =>
    have hc : c.key ≠ it.key := h c (List.mem_cons_self c rest)
    simp only [mergeItem, if_neg hc, List.cons_append, List.cons.injEq, true_and]
    exact ih fun x hx => h x (List.mem_cons_of_mem c hx)

/-- Merging an item whose key matches an existing line increments that
line in place. -/
theorem mergeItem_of_found (pre : List CartItem) (c : CartItem)
    (post : List CartItem) (it : CartItem)
    (hpre : ∀ x ∈ pre, x.key ≠ it.key) (hc : c.key = it.key) :
    mergeItem (pre ++ c :: post) it
      = pre ++ { c with quantity := c.quantity + it.quantity } :: post := by
  induction pre with
  | nil => simp [mergeItem, hc]
  | cons p ps ih =>
    have hp : p.key ≠ it.key := hpre p (List.mem_cons_self p ps)
    simp only [List.cons_append, mergeItem, if_neg hp, List.cons.injEq, true_and]
    exact ih fun x hx => hpre x (List.mem_cons_of_mem p hx)

/-- The keys after one merge step: unchanged when the key was present,
else the key is appended. -/
theorem mergeItem_map_key (cart : List CartItem) (it : CartItem) :
    (mergeItem cart it).map (·.key)
      = if it.key ∈ cart.map (·.key) then cart.map (·.key)
        else cart.map (·.key) ++ [it.key] := by
  induction cart with
  | nil => simp [mergeItem]
  | cons c rest ih =>
    by_cases hc : c.key = it.key
    · simp [mergeItem, hc]
    · have hne : it.key ≠ c.key := fun h => hc h.symm
      by_cases hm : it.key ∈ rest.map (·.key)
      · simp [mergeItem, if_neg hc, ih, hm, hne]
      · simp [mergeItem, if_neg hc, ih, hm, hne]

/-- One merge step preserves distinctness of keys. -/
theorem mergeItem_nodup (cart : List CartItem) (it : CartItem)
    (h : (cart.map (·.key)).Nodup) :
    ((mergeItem cart it).map (·.key)).Nodup := by
  rw [mergeItem_map_key]
  by_cases hm : it.key ∈ cart.map (·.key)
  · simpa [hm] using h
  · simp only [if_neg hm]
    simp [List.nodup_append, h, hm]

/-- Values looked up in an association list are bounded below when every
stored value is. -/
theorem lookup_ge_one : ∀ (l : List (String × Int)),
    (∀ p ∈ l, 1 ≤ p.2) → ∀ s n, l.lookup s = some n → 1 ≤ n := by
  intro l hl s n h
  induction l with
  | nil => simp [List.lookup] at h
  | cons p t ih =>
    rw [List.lookup] at h
    split at h
    · cases h
      exact hl p (List.mem_cons_self p t)
    · exact ih (fun q hq => hl q (List.mem_cons_of_mem p hq)) h

theorem quantity_map_ge_one : ∀ p ∈ quantity_map, 1 ≤ p.2 := by decide

theorem digitsVal_nonneg (s : String) : 0 ≤ digitsVal s :=
  Int.natCast_nonneg _

theorem qtyFromPrev_nonneg (p2 : Option String) (p1 : String) :
    0 ≤ qtyFromPrev p2 p1 := by
  rw [qtyFromPrev.eq_def]
  split
  · next n h1 =>
    exact le_trans (by decide) (lookup_ge_one _ quantity_map_ge_one _ _ h1)
  · by_cases hd : isDigits p1 = true
    · simp [hd, digitsVal_nonneg]
    · simp only [hd, Bool.false_eq_true, if_false]
      by_cases hm : (p1 == "more") = true
      · simp only [hm, if_true]
        rcases p2 with _ | w2
        · show (0 : Int) ≤ 1
          decide
        · simp only []
          split
          · next m h2 =>
            exact le_trans (by decide) (lookup_ge_one _ quantity_map_ge_one _ _ h2)
          · by_cases hd2 : isDigits w2 = true
            · simp [hd2, digitsVal_nonneg]
            · simp [hd2]
      · simp [hm]

theorem scanQty_nonneg (kw : String) : ∀ (p2 p1 : Option String)
    (ws : List String), 0 ≤ scanQty kw p2 p1 ws := by
  intro p2 p1 ws
  induction ws generalizing p2 p1 with
  | nil =>
    show (0 : Int) ≤ 1
    decide
  | cons w rest ih =>
    rw [scanQty.eq_def]
    simp only
    by_cases hc : strContains w kw = true
    · simp only [hc, if_true]
      rcases p1 with _ | pw
      · show (0 : Int) ≤ 1
        decide
      · exact qtyFromPrev_nonneg p2 pw
    · simp only [hc, Bool.false_eq_true, if_false]
      exact ih p1 (some w)

theorem findQuantity_nonneg (tl key : String) : 0 ≤ findQuantity tl key :=
  scanQty_nonneg _ _ _ _

/-- The keys produced by the fallback item loop over any menu list are
exactly the keys passing the substring test, in list order. -/
theorem fallback_keys_aux (tl : String) : ∀ l : List (String × String × ℚ),
    ((l.filterMap fun kv =>
        if strContains tl kv.1 then
          some (⟨kv.1, kv.2.1, kv.2.2, findQuantity tl kv.1⟩ : CartItem)
        else none).map (·.key))
      = (l.map Prod.fst).filter (fun k => strContains tl k) := by
  intro l
  induction l with
  | nil => rfl
  | cons kv rest ih =>
    by_cases hc : strContains tl kv.1 = true
    · simp [List.filterMap_cons, hc, ih, List.filter_cons]
    · simp [List.filterMap_cons, hc, ih, List.filter_cons]

/-- The keys of the fallback extraction are the matching menu keys in
declaration order. -/
theorem fallback_keys (u : String) :
    (fallback_extract_order u).map (·.key)
      = (MENU.map Prod.fst).filter (fun k => strContains (pyLower u) k) :=
  fallback_keys_aux (pyLower u) MENU

/-! ### Claim theorems -/

/-- C1: an utterance containing a checkout trigger phrase that is not
classified Casual or CartClear is classified Checkout; item extraction is
never invoked for it (the extractor short-circuits to `[]` and the
response of `process_order` is independent of the collaborator's
answer). -/
theorem checkout_precedence (u : String)
    (hchk : is_checkout_command u = true)
    (hcas : is_greeting_or_casual u = false)
    (hclr : is_cart_clear u = false) :
    classify u = Intent.Checkout
    ∧ (∀ mc resp, extract_order_with_gemini mc resp u = [])
    ∧ (∀ mc r1 r2 sfc st,
        process_order mc r1 sfc u st = process_order mc r2 sfc u st) := by
  refine ⟨?_, ?_, ?_⟩
  · simp [classify, hchk, hcas, hclr]
  · intro mc resp
    simp [extract_order_with_gemini, hchk, hcas]
  · intro mc r1 r2 sfc st
    simp [process_order, hchk, hcas, hclr]

/-- C1 witness at "that's all, no more pizza", which also contains the
menu item substring "pizza". -/
theorem checkout_precedence_witness :
    is_checkout_command "that\x27s all, no more pizza" = true
    ∧ strContains "that\x27s all, no more pizza" "pizza" = true
    ∧ classify "that\x27s all, no more pizza" = Intent.Checkout
    ∧ (∀ mc resp,
        extract_order_with_gemini mc resp "that\x27s all, no more pizza" = [])
    ∧ (∀ mc r1 r2 sfc st,
        process_order mc r1 sfc "that\x27s all, no more pizza" st
          = process_order mc r2 sfc "that\x27s all, no more pizza" st) := by
  have h := checkout_precedence "that\x27s all, no more pizza" rfl rfl rfl
  exact ⟨rfl, rfl, h.1, h.2.1, h.2.2⟩

/-- C5: with the completion collaborator disabled, the fallback extractor
is deterministic (independent of the collaborator's answer) and satisfies
the spec's two examples, including the "more" quantity chaining. -/
theorem fallback_examples (resp : Except Unit (List RawEntry)) :
    extract_order_with_gemini false resp "two burgers and a coffee"
      = [⟨"burger", "Burger", 899/100, 2⟩, ⟨"coffee", "Coffee", 349/100, 1⟩]
    ∧ extract_order_with_gemini false resp "three more coffees"
      = [⟨"coffee", "Coffee", 349/100, 3⟩] :=
  ⟨rfl, rfl⟩

/-- C6: a Checkout intent on an empty cart returns `success := false`,
cart `[]`, total 0, attempts no persistence write, and leaves the session
state (cart and completed flag) untouched. -/
theorem checkout_empty_cart (mc : Bool) (resp : Except Unit (List RawEntry))
    (sfc : Bool) (u : String) (st : SessionState)
    (hchk : is_checkout_command u = true)
    (hcas : is_greeting_or_casual u = false)
    (hclr : is_cart_clear u = false)
    (hcart : st.cart = []) :
    process_order mc resp sfc u st = (⟨false, [], 0, false⟩, st) := by
  simp [process_order, hchk, hcas, hclr, hcart]

/-- C6 witness: "checkout" on a fresh empty session. -/
theorem checkout_empty_cart_witness :
    is_checkout_command "checkout" = true
    ∧ process_order true (.error ()) true "checkout" ⟨[], false⟩
        = (⟨false, [], 0, false⟩, ⟨[], false⟩) :=
  ⟨rfl, checkout_empty_cart true (.error ()) true "checkout" ⟨[], false⟩
    rfl rfl rfl rfl⟩

/-- C8 counterexample: `classify("  Hi!! ")` is not Casual — stripping
removes only whitespace, so the anchored pattern `^hi+$` fails on
"hi!!" and the utterance falls through to OrderExtraction. -/
theorem casual_punctuation_counterexample :
    classify "  Hi!! " ≠ Intent.Casual := by
  decide

/-- C8 amended: casual classification is anchored to the whole trimmed,
lowercased utterance with punctuation kept significant: "hi" (and
"  Hi ") classify as Casual, while "  Hi!! " and "hi there" classify as
OrderExtraction. -/
theorem casual_anchored_amended :
    classify "hi" = Intent.Casual
    ∧ classify "  Hi " = Intent.Casual
    ∧ classify "  Hi!! " = Intent.OrderExtraction
    ∧ classify "hi there" = Intent.OrderExtraction :=
  ⟨rfl, rfl, rfl, rfl⟩

/-- C2: on a session whose completed flag is set, the next utterance that
reaches extraction and yields a non-empty extraction restarts the cart
from empty (the merge happens into `[]`, independent of the old cart) and
clears the flag; an empty extraction changes neither the cart nor the
flag. -/
theorem completed_lazy_reset (mc : Bool) (resp : Except Unit (List RawEntry))
    (sfc : Bool) (u : String) (st : SessionState)
    (hcomp : st.completed = true)
    (hcas : is_greeting_or_casual u = false)
    (hclr : is_cart_clear u = false)
    (hchk : is_checkout_command u = false) :
    (extract_order_with_gemini mc resp u ≠ [] →
      process_order mc resp sfc u st
        = (⟨true, mergeItems [] (extract_order_with_gemini mc resp u),
            cartTotal (mergeItems [] (extract_order_with_gemini mc resp u)),
            false⟩,
           ⟨mergeItems [] (extract_order_with_gemini mc resp u), false⟩))
    ∧ (extract_order_with_gemini mc resp u = [] →
      process_order mc resp sfc u st
        = (⟨false, st.cart, cartTotal st.cart, false⟩, st)) := by
  constructor
  · intro hne
    have hie : (extract_order_with_gemini mc resp u).isEmpty = false := by
      cases hx : extract_order_with_gemini mc resp u
      · exact absurd hx hne
      · rfl
    simp [process_order, hcas, hclr, hchk, hie, hcomp]
  · intro he
    simp [process_order, hcas, hclr, hchk, he]

/-- C2 witness: "pizza" ordered on a completed session holding an old
burger line starts the cart from empty. -/
theorem completed_lazy_reset_witness :
    (⟨[⟨"burger", "Burger", 899/100, 1⟩], true⟩ : SessionState).completed = true
    ∧ process_order false (.error ()) false "pizza"
        ⟨[⟨"burger", "Burger", 899/100, 1⟩], true⟩
      = (⟨true, [⟨"pizza", "Pizza", 1299/100, 1⟩], 1299/100, false⟩,
         ⟨[⟨"pizza", "Pizza", 1299/100, 1⟩], false⟩) := by
  refine ⟨rfl, ?_⟩
  have h := (completed_lazy_reset false (.error ()) false "pizza"
    ⟨[⟨"burger", "Burger", 899/100, 1⟩], true⟩ rfl rfl rfl rfl).1
    (by decide)
  rw [h]
  have h2 : mergeItems [] (extract_order_with_gemini false (.error ()) "pizza")
      = [⟨"pizza", "Pizza", 1299/100, 1⟩] := rfl
  rw [h2]
  simp [cartTotal]

/-- C3: merging an item with an existing key increments that line's
quantity in place (never replaces it); a new key is appended; merging a
single burger twice into an empty cart yields one line with quantity 2
and a total of twice the burger unit price, recomputed from the lines. -/
theorem merge_aggregation (pre : List CartItem) (c : CartItem)
    (post : List CartItem) (it : CartItem)
    (hpre : ∀ x ∈ pre, x.key ≠ it.key) (hc : c.key = it.key) :
    mergeItem (pre ++ c :: post) it
      = pre ++ { c with quantity := c.quantity + it.quantity } :: post
    ∧ (∀ (cart : List CartItem) (it2 : CartItem),
        (∀ x ∈ cart, x.key ≠ it2.key) → mergeItem cart it2 = cart ++ [it2])
    ∧ mergeItems (mergeItems [] [⟨"burger", "Burger", 899/100, 1⟩])
        [⟨"burger", "Burger", 899/100, 1⟩]
      = [⟨"burger", "Burger", 899/100, 2⟩]
    ∧ cartTotal (mergeItems (mergeItems [] [⟨"burger", "Burger", 899/100, 1⟩])
        [⟨"burger", "Burger", 899/100, 1⟩]) = 2 * (899/100) :=
  ⟨mergeItem_of_found pre c post it hpre hc,
   fun cart it2 h => mergeItem_of_not_found cart it2 h,
   rfl,
   by
    have e : mergeItems (mergeItems [] [(⟨"burger", "Burger", 899/100, 1⟩ : CartItem)])
        [⟨"burger", "Burger", 899/100, 1⟩] = [⟨"burger", "Burger", 899/100, 2⟩] := rfl
    rw [e]
    simp [cartTotal]
    ring⟩

/-- C3 witness: merging 2 burgers into a cart holding 3 burgers and a
pizza increments the burger line to 5 and leaves the pizza line alone. -/
theorem merge_aggregation_witness :
    mergeItem [⟨"burger", "Burger", 899/100, 3⟩, ⟨"pizza", "Pizza", 1299/100, 1⟩]
        ⟨"burger", "Burger", 899/100, 2⟩
      = [⟨"burger", "Burger", 899/100, 5⟩, ⟨"pizza", "Pizza", 1299/100, 1⟩] := by
  have h := (merge_aggregation [] ⟨"burger", "Burger", 899/100, 3⟩
    [⟨"pizza", "Pizza", 1299/100, 1⟩] ⟨"burger", "Burger", 899/100, 2⟩
    (by decide) rfl).1
  exact h.trans rfl

/-- C4: if no two cart lines share a key, merging any sequence of
extracted items preserves that invariant. -/
theorem merge_preserves_key_nodup (cart items : List CartItem)
    (h : (cart.map (·.key)).Nodup) :
    ((mergeItems cart items).map (·.key)).Nodup := by
  induction items generalizing cart with
  | nil => exact h
  | cons it rest ih => exact ih (mergeItem cart it) (mergeItem_nodup cart it h)

/-- C4 witness: a two-line cart with distinct keys stays key-distinct
after merging a coffee and more burgers. -/
theorem merge_preserves_key_nodup_witness :
    (([⟨"burger", "Burger", 899/100, 1⟩,
       ⟨"pizza", "Pizza", 1299/100, 2⟩] : List CartItem).map (·.key)).Nodup
    ∧ ((mergeItems
          [⟨"burger", "Burger", 899/100, 1⟩, ⟨"pizza", "Pizza", 1299/100, 2⟩]
          [⟨"coffee", "Coffee", 349/100, 1⟩, ⟨"burger", "Burger", 899/100, 4⟩]).map
        (·.key)).Nodup :=
  ⟨by decide, merge_preserves_key_nodup _ _ (by decide)⟩

/-- C7: the primary extractor never fails its caller: a collaborator
error (covering malformed, empty, or unparseable responses) degrades to
the fallback extractor, as does any entry whose quantity makes `int()`
raise; in a successfully validated response every produced item comes
from an entry whose normalized name is exactly its (case-insensitively
matched) menu key — non-menu entries are discarded, never substituted —
and an omitted quantity defaults to 1. -/
theorem primary_extractor_degrades (u : String)
    (hcas : is_greeting_or_casual u = false)
    (hchk : is_checkout_command u = false) :
    (∀ e : Unit, extract_order_with_gemini true (.error e) u
      = fallback_extract_order u)
    ∧ (∀ entries : List RawEntry, entries.any entryBadQty = true →
        extract_order_with_gemini true (.ok entries) u
          = fallback_extract_order u)
    ∧ (∀ entries : List RawEntry, entries.any entryBadQty = false →
        ∀ it ∈ extract_order_with_gemini true (.ok entries) u,
          ∃ e ∈ entries, pyStrip (pyLower e.item) = it.key
            ∧ menuLookup it.key = some (it.name, it.price)
            ∧ it.quantity = entryQty e)
    ∧ (∀ e : RawEntry, e.quantity = none → entryQty e = 1) := by
  refine ⟨?_, ?_, ?_, ?_⟩
  · intro e
    simp [extract_order_with_gemini, hcas, hchk]
  · intro entries hbad
    simp [extract_order_with_gemini, hcas, hchk, hbad]
  · intro entries hgood it hit
    simp only [extract_order_with_gemini, hcas, hchk, hgood, Bool.false_eq_true,
      if_false, Bool.not_true, if_true] at hit
    rw [List.mem_filterMap] at hit
    obtain ⟨e, he, hv⟩ := hit
    refine ⟨e, he, ?_⟩
    simp only [validEntry] at hv
    split at hv
    · next dn pr hm =>
      cases hv
      exact ⟨rfl, hm, rfl⟩
    · cases hv
  · intro e he
    simp [entryQty, he]

/-- C7 witness: on "two burgers" (neither casual nor a checkout command)
a failing collaborator yields exactly the fallback extraction. -/
theorem primary_extractor_degrades_witness :
    is_greeting_or_casual "two burgers" = false
    ∧ is_checkout_command "two burgers" = false
    ∧ extract_order_with_gemini true (.error ()) "two burgers"
        = fallback_extract_order "two burgers" :=
  ⟨rfl, rfl, (primary_extractor_degrades "two burgers" rfl rfl).1 ()⟩

/-- C9 counterexample: the fallback extractor maps "0 pizza" to a pizza
item with quantity 0 (`"0".isdigit()` holds and `int("0") = 0`), so an
ExtractedItem quantity can be below 1. -/
theorem quantity_ge_one_counterexample :
    ¬ (∀ it ∈ fallback_extract_order "0 pizza", 1 ≤ it.quantity) := by
  intro h
  have e : fallback_extract_order "0 pizza"
      = [⟨"pizza", "Pizza", 1299/100, 0⟩] := rfl
  have h0 := h ⟨"pizza", "Pizza", 1299/100, 0⟩
    (by rw [e]; exact List.mem_singleton_self _)
  exact absurd h0 (by decide)

/-- C9 amended: every ExtractedItem produced by the fallback extractor
has an integer quantity that is at least 0 (not 1: a bare "0" token
before the item yields quantity 0, and the primary path passes the
collaborator's integer through unvalidated). -/
theorem fallback_quantity_nonneg (u : String) (it : CartItem)
    (h : it ∈ fallback_extract_order u) : 0 ≤ it.quantity := by
  simp only [fallback_extract_order, List.mem_filterMap] at h
  obtain ⟨kv, hkv, hc⟩ := h
  by_cases hs : strContains (pyLower u) kv.1 = true
  · rw [if_pos hs] at hc
    cases hc
    exact findQuantity_nonneg _ _
  · rw [if_neg hs] at hc
    cases hc

/-- C9 amended witness: the pizza item extracted from "pizza" has a
nonnegative quantity. -/
theorem fallback_quantity_nonneg_witness :
    (⟨"pizza", "Pizza", 1299/100, 1⟩ : CartItem) ∈ fallback_extract_order "pizza"
    ∧ 0 ≤ (⟨"pizza", "Pizza", 1299/100, 1⟩ : CartItem).quantity := by
  have e : fallback_extract_order "pizza"
      = [⟨"pizza", "Pizza", 1299/100, 1⟩] := rfl
  have hm : (⟨"pizza", "Pizza", 1299/100, 1⟩ : CartItem)
      ∈ fallback_extract_order "pizza" := by
    rw [e]; exact List.mem_singleton_self _
  exact ⟨hm, fallback_quantity_nonneg "pizza" _ hm⟩

/-- C10: an utterance containing "cheeseburger" makes the fallback
extractor emit an item for the "burger" key (a substring of
"cheeseburger") and one for the "cheeseburger" key, as the first two
items; overall the emitted keys are exactly the matching menu keys, one
item each, in menu declaration order. -/
theorem cheeseburger_double_match (u : String)
    (h : strContains (pyLower u) "cheeseburger" = true) :
    (∃ q1 q2 rest, fallback_extract_order u
        = ⟨"burger", "Burger", 899/100, q1⟩
          :: ⟨"cheeseburger", "Cheeseburger", 999/100, q2⟩ :: rest)
    ∧ (fallback_extract_order u).map (·.key)
        = (MENU.map Prod.fst).filter (fun k => strContains (pyLower u) k) := by
  have hb : strContains (pyLower u) "burger" = true :=
    strContains_of_sub (pyLower u) "cheeseburger" "burger" h (by decide)
  constructor
  · refine ⟨findQuantity (pyLower u) "burger", findQuantity (pyLower u) "cheeseburger",
      (MENU.drop 2).filterMap (fun kv =>
        if strContains (pyLower u) kv.1 then
          some (⟨kv.1, kv.2.1, kv.2.2, findQuantity (pyLower u) kv.1⟩ : CartItem)
        else none), ?_⟩
    simp only [fallback_extract_order, MENU, List.drop, List.filterMap_cons, hb, h,
      if_true]
  · exact fallback_keys u

/-- C10 witness at "a cheeseburger". -/
theorem cheeseburger_double_match_witness :
    strContains (pyLower "a cheeseburger") "cheeseburger" = true
    ∧ ((∃ q1 q2 rest, fallback_extract_order "a cheeseburger"
        = ⟨"burger", "Burger", 899/100, q1⟩
          :: ⟨"cheeseburger", "Cheeseburger", 999/100, q2⟩ :: rest)
      ∧ (fallback_extract_order "a cheeseburger").map (·.key)
        = (MENU.map Prod.fst).filter
            (fun k => strContains (pyLower "a cheeseburger") k)) :=
  ⟨rfl, cheeseburger_double_match "a cheeseburger" rfl⟩
